import Mathlib

/-!
Verification development for the Alienware fan-control repository.

The file embeds the pieces of the source that the specified properties talk
about:

* `EcPokeWatch` — the EC register discovery state machine of
  `scripts/ec_poke_watch.py` (`_create_ec_backup`, `get_fan_speeds`,
  `write_ec_reg`, `test_register`, `run_discovery`).  Hardware is modelled by
  an environment: a success oracle for port reads/writes and a function giving
  the RPM vector observed for a given EC register state.  The interpreter
  threads an explicit state carrying the device bytes, the trace of port
  operations, the hits file, the backup file and an observation log.
* `AlienfanGui` — the `FanController` backend shared by `alienfan_gui.py` and
  `alienfan_gui_tkinter.py` (`set_pwm`, `set_all_pwm`, `get_fan_speeds`,
  `get_temperatures`).
* `EcFanControl` — `AlienwareFanController.set_fan_speed` and the EC command
  protocol of `scripts/ec_fan_control.py`.

Temperatures are modelled over `ℚ` (the source divides by `1000.0`); machine
bytes are `Nat`; Python integers are `Int` where sign matters.
-/

namespace EcPokeWatch

/-- A raw port operation performed through `/dev/port`:
`read a` models a one-byte read at offset `a` (only `_create_ec_backup`
reads the port), `write a v` models a one-byte write attempt. -/
inductive PortOp where
  | read : Nat → PortOp
  | write : Nat → Nat → PortOp
deriving DecidableEq

/-- One observation made by `test_register` for a duty cycle whose port write
succeeded: the baseline RPM vector, the post-write RPM vector and, when the
post-write vector differed from baseline (so the reversibility test ran),
the RPM vector observed after the reversal (zero) write. -/
structure ObsRec where
  addr : Nat
  duty : Nat
  baseline : List Nat
  post : List Nat
  revFinal : Option (List Nat)
deriving DecidableEq

/-- The mutable world of one `ECPokeWatcher` session: the EC register bytes,
the trace of port operations in program order, the `.hits` file contents, the
duty-cycle write attempts of `test_register` (line 104 of the source), the
observation log, and the `.ec_backup` file contents with a flag recording
whether the backup loop completed without an exception. -/
structure ECState where
  ec : Nat → Nat
  ops : List PortOp
  hits : List (Nat × Nat)
  dutyAttempts : List (Nat × Nat)
  obsLog : List ObsRec
  backup : List (Nat × Nat)
  backupComplete : Bool

/-- The hardware environment: whether `open("/dev/port")` succeeds inside
`_create_ec_backup`, whether a one-byte read at an address succeeds, whether a
one-byte write of a value to an address succeeds, and the RPM vector that
`get_fan_speeds` reports as a function of the current EC register state. -/
structure ECEnv where
  portOpenOk : Bool
  readOk : Nat → Bool
  writeOk : Nat → Nat → Bool
  speedsOf : (Nat → Nat) → List Nat

/-- Scan configuration: `ec_start`, `ec_end`, `stride` and `duty_cycles` of
`ECPokeWatcher.__init__`. -/
structure ECConfig where
  ecStart : Nat
  ecEnd : Nat
  stride : Nat
  dutyCycles : List Nat

/-- The configuration hard-coded in `ECPokeWatcher.__init__`. -/
def defaultConfig : ECConfig :=
  { ecStart := 0x02A0, ecEnd := 0x02FF, stride := 2
    dutyCycles := [0x16, 0x32, 0x64, 0x96, 0xC8, 0xFF] }

/-- A fresh session state over given initial EC register contents. -/
def initState (ec : Nat → Nat) : ECState :=
  { ec := ec, ops := [], hits := [], dutyAttempts := [], obsLog := []
    backup := [], backupComplete := false }

/-- Python `range(start, stop, step)` for a positive step. -/
def pyRange (start stop step : Nat) : List Nat :=
  List.range' start ((stop - start + step - 1) / step) step

/-- `ECPokeWatcher.write_ec_reg`: attempt a one-byte write; the attempt is
recorded in the operation trace, the register only changes when the
environment lets the write succeed, and the returned flag reports success. -/
def write_ec_reg (env : ECEnv) (addr value : Nat) (st : ECState) :
    Bool × ECState :=
  let st1 := { st with ops := st.ops ++ [PortOp.write addr value] }
  if env.writeOk addr value then
    (true, { st1 with ec := fun a => if a = addr then value else st.ec a })
  else
    (false, st1)

/-- The duty-cycle loop of `ECPokeWatcher.test_register` (lines 100–137):
for each duty, attempt the duty write (recorded in `dutyAttempts`); on write
failure `continue`; otherwise observe the RPM vector.  If it differs from
baseline, run the reversibility test (write zero, observe again): when the
vector returns to baseline append a hit and return `true` immediately,
otherwise fall through to the restore-zero write and keep testing.  When no
difference is observed, write zero and continue.  Returns `false` when the
ladder is exhausted. -/
def testGo (env : ECEnv) (addr : Nat) (baseline : List Nat) :
    List Nat → ECState → Bool × ECState
  | [], st => (false, st)
  | duty :: rest, st =>
    let w := write_ec_reg env addr duty
      { st with dutyAttempts := st.dutyAttempts ++ [(addr, duty)] }
    if w.1 then
      let current := env.speedsOf w.2.ec
      if current = baseline then
        testGo env addr baseline rest
          ((write_ec_reg env addr 0
            { w.2 with obsLog := w.2.obsLog ++
              [{ addr := addr, duty := duty, baseline := baseline
                 post := current, revFinal := none }] }).2)
      else
        let st2 := (write_ec_reg env addr 0 w.2).2
        let finalS := env.speedsOf st2.ec
        let st3 := { st2 with obsLog := st2.obsLog ++
          [{ addr := addr, duty := duty, baseline := baseline
             post := current, revFinal := some finalS }] }
        if finalS = baseline then
          (true, { st3 with hits := st3.hits ++ [(addr, duty)] })
        else
          testGo env addr baseline rest ((write_ec_reg env addr 0 st3).2)
    else
      testGo env addr baseline rest w.2

/-- `ECPokeWatcher.test_register`: capture the baseline RPM vector, then run
the duty-cycle ladder. -/
def test_register (env : ECEnv) (duties : List Nat) (addr : Nat)
    (st : ECState) : Bool × ECState :=
  testGo env addr (env.speedsOf st.ec) duties st

/-- The backup loop of `_create_ec_backup`: read each address in order,
appending the observed byte to the backup file; a failing read raises, which
ends the loop with an incomplete backup. -/
def backupGo (env : ECEnv) : List Nat → ECState → ECState × Bool
  | [], st => (st, true)
  | a :: rest, st =>
    let st1 := { st with ops := st.ops ++ [PortOp.read a] }
    if env.readOk a then
      backupGo env rest { st1 with backup := st1.backup ++ [(a, st.ec a)] }
    else
      (st1, false)

/-- `ECPokeWatcher._create_ec_backup`: open `/dev/port` and read every address
of the configured range into the backup file.  Any exception (open failure or
read failure) is caught and merely logged: the function returns normally and
the session proceeds either way. -/
def create_ec_backup (env : ECEnv) (cfg : ECConfig) (st : ECState) : ECState :=
  if env.portOpenOk then
    let r := backupGo env (pyRange cfg.ecStart (cfg.ecEnd + 1) cfg.stride) st
    { r.1 with backupComplete := r.2 }
  else
    { st with backupComplete := false }

/-- The address loop of `ECPokeWatcher.run_discovery` (lines 149–151):
test every address of the strided range, collecting those reported found. -/
def discoveryLoop (env : ECEnv) (duties : List Nat) :
    List Nat → List Nat × ECState → List Nat × ECState
  | [], acc => acc
  | a :: rest, acc =>
    let r := test_register env duties a acc.2
    discoveryLoop env duties rest
      (if r.1 then acc.1 ++ [a] else acc.1, r.2)

/-- A whole `ECPokeWatcher` session: `__init__` creates the EC backup, then
`run_discovery` walks the strided address range.  Returns the list of
discovered addresses and the final state. -/
def run_discovery (env : ECEnv) (cfg : ECConfig) (st : ECState) :
    List Nat × ECState :=
  let st1 := create_ec_backup env cfg st
  discoveryLoop env cfg.dutyCycles
    (pyRange cfg.ecStart (cfg.ecEnd + 1) cfg.stride) ([], st1)

/-- Whether a port operation is a one-byte read. -/
def PortOp.isRd : PortOp → Bool
  | PortOp.read _ => true
  | PortOp.write _ _ => false

/-- Whether a port operation is a one-byte write. -/
def PortOp.isWr : PortOp → Bool
  | PortOp.read _ => false
  | PortOp.write _ _ => true

/-- A Confirmed observation in the sense of the specification: the post-write
RPM vector differed from baseline and the vector observed after the reversal
(zero) write equals baseline again. -/
def confirmedObs (r : ObsRec) : Prop :=
  r.post ≠ r.baseline ∧ r.revFinal = some r.baseline

instance (r : ObsRec) : Decidable (confirmedObs r) := by
  unfold confirmedObs
  infer_instance

/-- The hits file is exactly the set of confirmed observations: an entry
`(a, d)` appears in the hits file iff the observation log holds a confirmed
record for address `a` at duty `d`. -/
def hitsObsInv (st : ECState) : Prop :=
  ∀ a d, (a, d) ∈ st.hits ↔
    ∃ r ∈ st.obsLog, r.addr = a ∧ r.duty = d ∧ confirmedObs r

/-- The channel-level body of `ECPokeWatcher.get_fan_speeds`: walk the flat
list of `fan<K>_input` files found under `/sys/class/hwmon`, reading each;
a read raising `ValueError`/`IOError` is caught for that channel alone and
contributes `0`. -/
def get_fan_speeds (readFan : String → Option Int) (chans : List String) :
    List Int :=
  chans.foldl (fun acc c => acc ++ [(readFan c).getD 0]) []

/-- Demo environment: the port device works perfectly and no EC register has
any effect on fan RPM (the tachometer vector is constantly `[1000]`). -/
def envAllOk : ECEnv :=
  { portOpenOk := true, readOk := fun _ => true
    writeOk := fun _ _ => true, speedsOf := fun _ => [1000] }

/-- Demo environment: `/dev/port` cannot be opened by `_create_ec_backup`,
but the per-call opens inside `write_ec_reg` succeed (each call opens the
device anew in the source). -/
def envNoBackupPort : ECEnv := { envAllOk with portOpenOk := false }

/-- Demo environment: register `0x2A0` drives the reported RPM directly, so
a write changes RPM and the reversal write to `0` does NOT bring it back to
a nonzero baseline (an irreversible register). -/
def envSticky : ECEnv :=
  { portOpenOk := true, readOk := fun _ => true
    writeOk := fun _ _ => true, speedsOf := fun ec => [ec 0x2A0] }

/-- Demo environment: register `0x2A0` toggles RPM between `1000` (value 0)
and `2000` (any nonzero value), so a duty write changes RPM and the reversal
write restores it — a confirmable fan register. -/
def envToggle : ECEnv :=
  { portOpenOk := true, readOk := fun _ => true
    writeOk := fun _ _ => true
    speedsOf := fun ec => [if ec 0x2A0 = 0 then 1000 else 2000] }

/-- Demo configuration: a single scanned address `0x2A0` and the single duty
cycle `0x16`. -/
def cfgOne : ECConfig :=
  { ecStart := 0x2A0, ecEnd := 0x2A0, stride := 2, dutyCycles := [0x16] }

/-- Demo configuration: two scanned addresses `0x2A0`, `0x2A2` and the duty
ladder `[0x16, 0x32]`. -/
def cfgTwo : ECConfig :=
  { ecStart := 0x2A0, ecEnd := 0x2A2, stride := 2
    dutyCycles := [0x16, 0x32] }

/-- Demo configuration with an empty scan range: the start address is greater
than the end address. -/
def cfgEmpty : ECConfig :=
  { ecStart := 0x2FF, ecEnd := 0x2A0, stride := 2, dutyCycles := [0x16] }

end EcPokeWatch

namespace AlienfanGui

/-- One entry of `FanController.fan_devices`: device name, sysfs path, fan
channel numbers with an `_input` file, and the subset that also exposes a
writable `pwm<K>` file. -/
structure FanDevice where
  name : String
  path : String
  fanInputs : List String
  fanPwms : List String
deriving DecidableEq

/-- One entry of `FanController.temp_devices`: device name, sysfs path and
temperature channel numbers. -/
structure TempDevice where
  name : String
  path : String
  tempInputs : List String
deriving DecidableEq

/-- The discovered registries of a `FanController` (Python dicts modelled as
association lists keyed by the hwmon identifier; a Python dict has no
duplicate keys, stated as a `Nodup` hypothesis where it matters). -/
structure FanCtrl where
  fanDevices : List (String × FanDevice)
  tempDevices : List (String × TempDevice)

/-- The sysfs world: whether writing the `pwm<K>` file of a channel succeeds,
and the integer contents of the `fan<K>_input` / `temp<K>_input` files
(`none` models a read that raises `IOError`/`ValueError`). -/
structure SysfsEnv where
  writePwm : String → String → Bool
  readFan : String → String → Option Int
  readTemp : String → String → Option Int

/-- `FanController.set_pwm` (identical in `alienfan_gui.py` and
`alienfan_gui_tkinter.py`): return `False` when the hwmon identifier is not a
known fan device or the fan number has no PWM control — without touching
hardware — and otherwise attempt the `pwm<K>` file write with the given value
as it is, returning the write's success.  The second component is the list of
hardware write attempts `(hwmon, fan, value)` the call performs. -/
def set_pwm (ctrl : FanCtrl) (env : SysfsEnv) (hwmonName fanNum : String)
    (pwmValue : Int) : Bool × List (String × String × Int) :=
  match ctrl.fanDevices.lookup hwmonName with
  | none => (false, [])
  | some dev =>
    if fanNum ∈ dev.fanPwms then
      (env.writePwm hwmonName fanNum, [(hwmonName, fanNum, pwmValue)])
    else
      (false, [])

/-- The loops of `FanController.set_all_pwm`: fold over every fan device and
every PWM channel, calling `set_pwm` on each and clearing the aggregate flag
on each failure; accumulates every hardware write attempt. -/
def setAllGo (ctrl : FanCtrl) (env : SysfsEnv) (pwmValue : Int) :
    List (String × FanDevice) → Bool × List (String × String × Int) →
    Bool × List (String × String × Int)
  | [], acc => acc
  | p :: rest, acc =>
    let acc1 := p.2.fanPwms.foldl
      (fun a f =>
        let r := set_pwm ctrl env p.1 f pwmValue
        (a.1 && r.1, a.2 ++ r.2)) acc
    setAllGo ctrl env pwmValue rest acc1

/-- `FanController.set_all_pwm`: apply `set_pwm` to every PWM channel of
every fan device, returning a single aggregate success Boolean (and, in the
model, the trace of write attempts). -/
def set_all_pwm (ctrl : FanCtrl) (env : SysfsEnv) (pwmValue : Int) :
    Bool × List (String × String × Int) :=
  setAllGo ctrl env pwmValue ctrl.fanDevices (true, [])

/-- `FanController.get_fan_speeds`: for every fan device and every fan input
channel, read `fan<K>_input`; a failing read is caught per channel and
reported as `0`. -/
def get_fan_speeds (ctrl : FanCtrl) (env : SysfsEnv) :
    List (String × List (String × Int)) :=
  ctrl.fanDevices.foldl
    (fun acc p => acc ++
      [(p.1, p.2.fanInputs.foldl
        (fun inner f => inner ++ [(f, (env.readFan p.1 f).getD 0)]) [])]) []

/-- `FanController.get_temperatures`: for every temperature device and
channel, read the raw milli-degree integer from `temp<K>_input` and divide by
`1000.0` (modelled exactly over `ℚ`); a failing read is caught per channel
and reported as `0.0`. -/
def get_temperatures (ctrl : FanCtrl) (env : SysfsEnv) :
    List (String × List (String × ℚ)) :=
  ctrl.tempDevices.foldl
    (fun acc p => acc ++
      [(p.1, p.2.tempInputs.foldl
        (fun inner t => inner ++
          [(t, ((env.readTemp p.1 t).map
            (fun raw => (raw : ℚ) / 1000)).getD 0)]) [])]) []

/-- Demo fan device with two tachometer channels, both PWM-controllable. -/
def demoDev : FanDevice :=
  { name := ("alienware"), path := ("/sys/class/hwmon/hwmon0")
    fanInputs := [("1"), ("2")], fanPwms := [("1"), ("2")] }

/-- Demo controller registry holding only `demoDev`. -/
def demoCtrl : FanCtrl :=
  { fanDevices := [(("hwmon0"), demoDev)], tempDevices := [] }

/-- Demo sysfs world: every PWM write succeeds, every sensor read fails. -/
def envPwmOk : SysfsEnv :=
  { writePwm := fun _ _ => true
    readFan := fun _ _ => none, readTemp := fun _ _ => none }

/-- Demo sysfs world: the write to pwm channel `1` fails, all others
succeed. -/
def envFail1 : SysfsEnv :=
  { envPwmOk with writePwm := fun _ f => if f = ("1") then false else true }

/-- Demo sysfs world: the write to pwm channel `2` fails, all others
succeed. -/
def envFail2 : SysfsEnv :=
  { envPwmOk with writePwm := fun _ f => if f = ("2") then false else true }

end AlienfanGui

namespace EcFanControl

/-- `AlienwareFanController.fan_commands`: the EC command byte per fan
identifier. -/
def fan_commands : List (String × Nat) :=
  [(("fan1"), 0x30), (("fan2"), 0x31), (("fan3"), 0x32),
   (("fan4"), 0x33), (("fan5"), 0x34), (("fan6"), 0x35)]

/-- The `ECAccess` port state and hardware: whether `/dev/port` is currently
open, and whether a one-byte write of a value to a port succeeds. -/
structure PortEnv where
  isOpen : Bool
  writeOk : Nat → Int → Bool

/-- `ECAccess.write_port`: when the port file is not open, return `False`
with no hardware access; otherwise attempt the one-byte write (recorded as
`(port, value)`) and report success. -/
def write_port (env : PortEnv) (port : Nat) (value : Int) :
    Bool × List (Nat × Int) :=
  if env.isOpen then
    (env.writeOk port value, [(port, value)])
  else
    (false, [])

/-- `ECAccess.ec_write`: send the command byte to port `0x62`; on failure
return `False`; otherwise (after the settle sleep) write the value to data
port `0x63` and return that write's success. -/
def ec_write (env : PortEnv) (command : Nat) (value : Int) :
    Bool × List (Nat × Int) :=
  let r1 := write_port env 0x62 (command : Int)
  if r1.1 then
    let r2 := write_port env 0x63 value
    (r2.1, r1.2 ++ r2.2)
  else
    (false, r1.2)

/-- `AlienwareFanController.set_fan_speed`: return `False` for an unknown fan
identifier (no hardware access); otherwise clamp the requested PWM value by
`max(0, min(255, pwm_value))` and issue `ec_write` with the fan's command
byte. -/
def set_fan_speed (env : PortEnv) (fanId : String) (pwmValue : Int) :
    Bool × List (Nat × Int) :=
  match fan_commands.lookup fanId with
  | none => (false, [])
  | some command => ec_write env command (max 0 (min 255 pwmValue))

/-- Demo port environment for `EcFanControl`: the device is open and every
port write succeeds. -/
def portEnvOk : PortEnv := { isOpen := true, writeOk := fun _ _ => true }

end EcFanControl

namespace EcPokeWatch

@[simp]
theorem write_ec_reg_ops (env : ECEnv) (a v : Nat) (st : ECState) :
    (write_ec_reg env a v st).2.ops = st.ops ++ [PortOp.write a v] := by
  unfold write_ec_reg
  split <;> rfl

@[simp]
theorem write_ec_reg_hits (env : ECEnv) (a v : Nat) (st : ECState) :
    (write_ec_reg env a v st).2.hits = st.hits := by
  unfold write_ec_reg
  split <;> rfl

@[simp]
theorem write_ec_reg_dutyAttempts (env : ECEnv) (a v : Nat) (st : ECState) :
    (write_ec_reg env a v st).2.dutyAttempts = st.dutyAttempts := by
  unfold write_ec_reg
  split <;> rfl

@[simp]
theorem write_ec_reg_obsLog (env : ECEnv) (a v : Nat) (st : ECState) :
    (write_ec_reg env a v st).2.obsLog = st.obsLog := by
  unfold write_ec_reg
  split <;> rfl

@[simp]
theorem write_ec_reg_backup (env : ECEnv) (a v : Nat) (st : ECState) :
    (write_ec_reg env a v st).2.backup = st.backup := by
  unfold write_ec_reg
  split <;> rfl

theorem write_ec_reg_fst {env : ECEnv} {a v : Nat}
    (h : env.writeOk a v = true) (st : ECState) :
    (write_ec_reg env a v st).1 = true := by
  simp [write_ec_reg, h]

theorem write_ec_reg_ec_self {env : ECEnv} {a v : Nat}
    (h : env.writeOk a v = true) (st : ECState) :
    (write_ec_reg env a v st).2.ec a = v := by
  simp [write_ec_reg, h]

theorem write_ec_reg_ec_ne {env : ECEnv} {a v x : Nat} (hx : x ≠ a)
    (st : ECState) : (write_ec_reg env a v st).2.ec x = st.ec x := by
  unfold write_ec_reg
  split <;> simp [hx]

theorem exists_append_trans {α : Type} {xs ys zs : List α}
    (h1 : ∃ l, ys = xs ++ l) (h2 : ∃ l, zs = ys ++ l) :
    ∃ l, zs = xs ++ l := by
  obtain ⟨l1, e1⟩ := h1
  obtain ⟨l2, e2⟩ := h2
  exact ⟨l1 ++ l2, by rw [e2, e1, List.append_assoc]⟩

/-- `testGo` only ever extends the duty-attempt trace. -/
theorem testGo_dutyAttempts_mono (env : ECEnv) (addr : Nat) (b : List Nat) :
    ∀ (ds : List Nat) (st : ECState),
      ∃ l, (testGo env addr b ds st).2.dutyAttempts = st.dutyAttempts ++ l := by
  intro ds
  induction ds with
  | nil => exact fun st => ⟨[], by simp [testGo]⟩
  | cons duty rest ih =>
    intro st
    simp only [testGo]
    split_ifs with h1 h2 h3
    · exact exists_append_trans ⟨[(addr, duty)], by simp⟩ (ih _)
    · exact ⟨[(addr, duty)], by simp⟩
    · exact exists_append_trans ⟨[(addr, duty)], by simp⟩ (ih _)
    · exact exists_append_trans ⟨[(addr, duty)], by simp⟩ (ih _)

theorem exists_append_pred_trans {α : Type} {p : α → Bool} {xs ys zs : List α}
    (h1 : ∃ l, ys = xs ++ l ∧ ∀ x ∈ l, p x = true)
    (h2 : ∃ l, zs = ys ++ l ∧ ∀ x ∈ l, p x = true) :
    ∃ l, zs = xs ++ l ∧ ∀ x ∈ l, p x = true := by
  obtain ⟨l1, e1, a1⟩ := h1
  obtain ⟨l2, e2, a2⟩ := h2
  refine ⟨l1 ++ l2, by rw [e2, e1, List.append_assoc], ?_⟩
  intro x hx
  rcases List.mem_append.1 hx with h | h
  exacts [a1 x h, a2 x h]

/-- Each port operation performed by the duty-cycle loop is a write. -/
theorem testGo_ops_writes (env : ECEnv) (addr : Nat) (b : List Nat) :
    ∀ (ds : List Nat) (st : ECState),
      ∃ l, (testGo env addr b ds st).2.ops = st.ops ++ l ∧
        ∀ op ∈ l, op.isWr = true := by
  intro ds
  induction ds with
  | nil => exact fun st => ⟨[], by simp [testGo], by simp⟩
  | cons duty rest ih =>
    intro st
    simp only [testGo]
    split_ifs with h1 h2 h3
    · refine exists_append_pred_trans
        ⟨[PortOp.write addr duty, PortOp.write addr 0], by simp, ?_⟩ (ih _)
      intro op hop
      simp only [List.mem_cons, List.mem_singleton] at hop
      rcases hop with rfl | rfl | h
      · rfl
      · rfl
      · exact absurd h (List.not_mem_nil op)
    · refine ⟨[PortOp.write addr duty, PortOp.write addr 0], by simp, ?_⟩
      intro op hop
      simp only [List.mem_cons, List.mem_singleton] at hop
      rcases hop with rfl | rfl | h
      · rfl
      · rfl
      · exact absurd h (List.not_mem_nil op)
    · refine exists_append_pred_trans
        ⟨[PortOp.write addr duty, PortOp.write addr 0, PortOp.write addr 0],
          by simp, ?_⟩ (ih _)
      intro op hop
      simp only [List.mem_cons, List.mem_singleton] at hop
      rcases hop with rfl | rfl | rfl | h
      · rfl
      · rfl
      · rfl
      · exact absurd h (List.not_mem_nil op)
    · refine exists_append_pred_trans
        ⟨[PortOp.write addr duty], by simp, ?_⟩ (ih _)
      intro op hop
      simp only [List.mem_singleton] at hop
      subst hop
      rfl

/-- The duty-cycle loop never writes to a register other than the one under
test. -/
theorem testGo_ec_ne (env : ECEnv) (addr : Nat) (b : List Nat) {x : Nat}
    (hx : x ≠ addr) :
    ∀ (ds : List Nat) (st : ECState),
      (testGo env addr b ds st).2.ec x = st.ec x := by
  intro ds
  induction ds with
  | nil => exact fun st => by simp [testGo]
  | cons duty rest ih =>
    intro st
    simp only [testGo]
    split_ifs with h1 h2 h3
    · rw [ih _]
      simp [write_ec_reg_ec_ne hx]
    · simp [write_ec_reg_ec_ne hx]
    · rw [ih _]
      simp [write_ec_reg_ec_ne hx]
    · rw [ih _]
      simp [write_ec_reg_ec_ne hx]

/-- When every port write succeeds and the duty ladder is non-empty, the
register under test is left holding the neutral byte `0` — the last value
the loop writes to it on every path. -/
theorem testGo_ec_self (env : ECEnv) (addr : Nat) (b : List Nat)
    (hw : ∀ a v, env.writeOk a v = true) :
    ∀ (ds : List Nat), ds ≠ [] → ∀ (st : ECState),
      (testGo env addr b ds st).2.ec addr = 0 := by
  intro ds
  induction ds with
  | nil => exact fun h => absurd rfl h
  | cons duty rest ih =>
    intro _ st
    simp only [testGo]
    split_ifs with h1 h2 h3
    · rcases eq_or_ne rest [] with hrest | hrest
      · subst hrest
        simp only [testGo]
        simp [write_ec_reg_ec_self (hw addr 0)]
      · exact ih hrest _
    · simp [write_ec_reg_ec_self (hw addr 0)]
    · rcases eq_or_ne rest [] with hrest | hrest
      · subst hrest
        simp only [testGo]
        simp [write_ec_reg_ec_self (hw addr 0)]
      · exact ih hrest _
    · exact absurd (write_ec_reg_fst (hw addr duty) _) h1

/-- When the duty loop reports no confirmation, every duty cycle of the
ladder was attempted on the address, in order: an irreversible observation
does not shorten the ladder. -/
theorem testGo_attempts_complete (env : ECEnv) (addr : Nat) (b : List Nat) :
    ∀ (ds : List Nat) (st : ECState), (testGo env addr b ds st).1 = false →
      (testGo env addr b ds st).2.dutyAttempts =
        st.dutyAttempts ++ ds.map (fun d => (addr, d)) := by
  intro ds
  induction ds with
  | nil => intro st _; simp [testGo]
  | cons duty rest ih =>
    intro st
    simp only [testGo]
    split_ifs with h1 h2 h3
    · intro hres
      rw [ih _ hres]
      simp
    · intro hres
      simp at hres
    · intro hres
      rw [ih _ hres]
      simp
    · intro hres
      rw [ih _ hres]
      simp

/-- Adjoining a non-confirmed observation record does not change the set of
confirmed observations. -/
theorem exists_mem_append_nonconf {l : List ObsRec} {r0 : ObsRec} {a d : Nat}
    (hr : ¬ (r0.addr = a ∧ r0.duty = d ∧ confirmedObs r0)) :
    (∃ r ∈ l ++ [r0], r.addr = a ∧ r.duty = d ∧ confirmedObs r) ↔
      ∃ r ∈ l, r.addr = a ∧ r.duty = d ∧ confirmedObs r := by
  constructor
  · rintro ⟨r, hm, hp⟩
    rcases List.mem_append.1 hm with h | h
    · exact ⟨r, h, hp⟩
    · rw [List.mem_singleton] at h
      subst h
      exact absurd hp hr
  · rintro ⟨r, hm, hp⟩
    exact ⟨r, List.mem_append_left _ hm, hp⟩

/-- Adjoining a confirmed observation record adds exactly its own
address/duty pair to the set of confirmed observations. -/
theorem exists_mem_append_conf {l : List ObsRec} {r0 : ObsRec}
    {a d a0 d0 : Nat} (hra : r0.addr = a0) (hrd : r0.duty = d0)
    (hc : confirmedObs r0) :
    (∃ r ∈ l ++ [r0], r.addr = a ∧ r.duty = d ∧ confirmedObs r) ↔
      ((∃ r ∈ l, r.addr = a ∧ r.duty = d ∧ confirmedObs r) ∨
        (a = a0 ∧ d = d0)) := by
  constructor
  · rintro ⟨r, hm, ha, hd, hcr⟩
    rcases List.mem_append.1 hm with h | h
    · exact Or.inl ⟨r, h, ha, hd, hcr⟩
    · rw [List.mem_singleton] at h
      subst h
      exact Or.inr ⟨ha.symm.trans hra, hd.symm.trans hrd⟩
  · rintro (⟨r, hm, hp⟩ | ⟨ha, hd⟩)
    · exact ⟨r, List.mem_append_left _ hm, hp⟩
    · exact ⟨r0, List.mem_append_right _ (List.mem_singleton_self _),
        hra.trans ha.symm, hrd.trans hd.symm, hc⟩

/-- The duty-cycle loop preserves the hits/observation correspondence: it
appends a hit exactly when it appends a confirmed observation. -/
theorem testGo_inv (env : ECEnv) (addr : Nat) (b : List Nat) :
    ∀ (ds : List Nat) (st : ECState),
      hitsObsInv st → hitsObsInv (testGo env addr b ds st).2 := by
  intro ds
  induction ds with
  | nil => intro st h; simpa [testGo] using h
  | cons duty rest ih =>
    intro st hinv
    simp only [testGo]
    split_ifs with h1 h2 h3
    · apply ih
      intro a d
      simp only [write_ec_reg_hits, write_ec_reg_obsLog]
      rw [hinv a d]
      exact (exists_mem_append_nonconf (by simp [confirmedObs])).symm
    · intro a d
      have hmem : ((a, d) ∈ st.hits ++ [(addr, duty)]) ↔
          ((a, d) ∈ st.hits ∨ (a = addr ∧ d = duty)) := by
        simp [List.mem_append, List.mem_singleton, Prod.mk.injEq]
      simp only [write_ec_reg_hits, write_ec_reg_obsLog]
      rw [hmem, hinv a d]
      refine (exists_mem_append_conf ?_ ?_ ?_).symm
      · rfl
      · rfl
      · exact ⟨by simpa using h2, congrArg some h3⟩
    · apply ih
      intro a d
      simp only [write_ec_reg_hits, write_ec_reg_obsLog]
      rw [hinv a d]
      exact (exists_mem_append_nonconf (by simp [confirmedObs, h3])).symm
    · apply ih
      intro a d
      simp only [write_ec_reg_hits, write_ec_reg_obsLog]
      exact hinv a d

/-- When the duty-cycle loop confirms, the attempted duties are exactly a
prefix of the ladder ending at the confirmed duty, and exactly that one hit
is appended: nothing beyond the confirming duty is tested. -/
theorem testGo_confirm_shape (env : ECEnv) (addr : Nat) (b : List Nat) :
    ∀ (ds : List Nat) (st : ECState), (testGo env addr b ds st).1 = true →
      ∃ pre d rest2, ds = pre ++ d :: rest2 ∧
        (testGo env addr b ds st).2.dutyAttempts =
          st.dutyAttempts ++ (pre ++ [d]).map (fun x => (addr, x)) ∧
        (testGo env addr b ds st).2.hits = st.hits ++ [(addr, d)] := by
  intro ds
  induction ds with
  | nil => intro st h; simp [testGo] at h
  | cons duty rest ih =>
    intro st
    simp only [testGo]
    split_ifs with h1 h2 h3
    · intro hres
      obtain ⟨pre, d0, rest2, hds, hatt, hhits⟩ := ih _ hres
      refine ⟨duty :: pre, d0, rest2, by simp [hds], ?_, ?_⟩
      · rw [hatt]
        simp
      · rw [hhits]
        simp
    · intro _
      refine ⟨[], duty, rest, rfl, ?_, ?_⟩
      · simp
      · simp
    · intro hres
      obtain ⟨pre, d0, rest2, hds, hatt, hhits⟩ := ih _ hres
      refine ⟨duty :: pre, d0, rest2, by simp [hds], ?_, ?_⟩
      · rw [hatt]
        simp
      · rw [hhits]
        simp
    · intro hres
      obtain ⟨pre, d0, rest2, hds, hatt, hhits⟩ := ih _ hres
      refine ⟨duty :: pre, d0, rest2, by simp [hds], ?_, ?_⟩
      · rw [hatt]
        simp
      · rw [hhits]
        simp

/-- The head duty of a non-empty ladder is always attempted (the attempt is
recorded before the write's success is even known). -/
theorem testGo_head_attempt (env : ECEnv) (addr : Nat) (b : List Nat)
    (duty : Nat) (rest : List Nat) (st : ECState) :
    (addr, duty) ∈ (testGo env addr b (duty :: rest) st).2.dutyAttempts := by
  simp only [testGo]
  split_ifs with h1 h2 h3
  · obtain ⟨l, hl⟩ := testGo_dutyAttempts_mono env addr b rest _
    rw [hl]
    simp
  · simp
  · obtain ⟨l, hl⟩ := testGo_dutyAttempts_mono env addr b rest _
    rw [hl]
    simp
  · obtain ⟨l, hl⟩ := testGo_dutyAttempts_mono env addr b rest _
    rw [hl]
    simp

end EcPokeWatch

namespace EcPokeWatch

theorem backupGo_preserves (env : ECEnv) :
    ∀ (l : List Nat) (st : ECState),
      (backupGo env l st).1.hits = st.hits ∧
      (backupGo env l st).1.obsLog = st.obsLog ∧
      (backupGo env l st).1.ec = st.ec ∧
      (backupGo env l st).1.dutyAttempts = st.dutyAttempts := by
  intro l
  induction l with
  | nil => exact fun st => ⟨rfl, rfl, rfl, rfl⟩
  | cons a rest ih =>
    intro st
    simp only [backupGo]
    split_ifs with h
    · exact ⟨(ih _).1, (ih _).2.1, (ih _).2.2.1, (ih _).2.2.2⟩
    · exact ⟨rfl, rfl, rfl, rfl⟩

/-- Every port operation of the backup loop is a read. -/
theorem backupGo_ops_reads (env : ECEnv) :
    ∀ (l : List Nat) (st : ECState),
      ∃ l', (backupGo env l st).1.ops = st.ops ++ l' ∧
        ∀ op ∈ l', op.isRd = true := by
  intro l
  induction l with
  | nil => exact fun st => ⟨[], by simp [backupGo], by simp⟩
  | cons a rest ih =>
    intro st
    simp only [backupGo]
    split_ifs with h
    · refine exists_append_pred_trans ⟨[PortOp.read a], by simp, ?_⟩ (ih _)
      intro op hop
      simp only [List.mem_singleton] at hop
      subst hop
      rfl
    · refine ⟨[PortOp.read a], by simp, ?_⟩
      intro op hop
      simp only [List.mem_singleton] at hop
      subst hop
      rfl

theorem create_ec_backup_preserves (env : ECEnv) (cfg : ECConfig)
    (st : ECState) :
    (create_ec_backup env cfg st).hits = st.hits ∧
    (create_ec_backup env cfg st).obsLog = st.obsLog ∧
    (create_ec_backup env cfg st).ec = st.ec ∧
    (create_ec_backup env cfg st).dutyAttempts = st.dutyAttempts := by
  unfold create_ec_backup
  split_ifs with h
  · obtain ⟨h1, h2, h3, h4⟩ := backupGo_preserves env
      (pyRange cfg.ecStart (cfg.ecEnd + 1) cfg.stride) st
    exact ⟨h1, h2, h3, h4⟩
  · exact ⟨rfl, rfl, rfl, rfl⟩

theorem create_ec_backup_ops_reads (env : ECEnv) (cfg : ECConfig)
    (st : ECState) :
    ∃ l', (create_ec_backup env cfg st).ops = st.ops ++ l' ∧
      ∀ op ∈ l', op.isRd = true := by
  unfold create_ec_backup
  split_ifs with h
  · obtain ⟨l', hl, ha⟩ := backupGo_ops_reads env
      (pyRange cfg.ecStart (cfg.ecEnd + 1) cfg.stride) st
    exact ⟨l', hl, ha⟩
  · exact ⟨[], by simp, by simp⟩

theorem discoveryLoop_inv (env : ECEnv) (duties : List Nat) :
    ∀ (addrs : List Nat) (acc : List Nat × ECState), hitsObsInv acc.2 →
      hitsObsInv (discoveryLoop env duties addrs acc).2 := by
  intro addrs
  induction addrs with
  | nil => exact fun acc h => by simpa [discoveryLoop] using h
  | cons a rest ih =>
    intro acc hinv
    simp only [discoveryLoop]
    exact ih _ (testGo_inv env a (env.speedsOf acc.2.ec) duties acc.2 hinv)

theorem discoveryLoop_ops_writes (env : ECEnv) (duties : List Nat) :
    ∀ (addrs : List Nat) (acc : List Nat × ECState),
      ∃ l, (discoveryLoop env duties addrs acc).2.ops = acc.2.ops ++ l ∧
        ∀ op ∈ l, op.isWr = true := by
  intro addrs
  induction addrs with
  | nil => exact fun acc => ⟨[], by simp [discoveryLoop], by simp⟩
  | cons a rest ih =>
    intro acc
    simp only [discoveryLoop]
    exact exists_append_pred_trans
      (testGo_ops_writes env a (env.speedsOf acc.2.ec) duties acc.2) (ih _)

theorem discoveryLoop_attempts_mono (env : ECEnv) (duties : List Nat) :
    ∀ (addrs : List Nat) (acc : List Nat × ECState),
      ∃ l, (discoveryLoop env duties addrs acc).2.dutyAttempts =
        acc.2.dutyAttempts ++ l := by
  intro addrs
  induction addrs with
  | nil => exact fun acc => ⟨[], by simp [discoveryLoop]⟩
  | cons a rest ih =>
    intro acc
    simp only [discoveryLoop]
    exact exists_append_trans
      (testGo_dutyAttempts_mono env a (env.speedsOf acc.2.ec) duties acc.2)
      (ih _)

/-- Every scanned address has the head duty of the ladder attempted on it:
an earlier address's verdict never makes the loop skip a later address. -/
theorem discoveryLoop_first_attempts (env : ECEnv) (duty : Nat)
    (ds2 : List Nat) :
    ∀ (addrs : List Nat) (acc : List Nat × ECState), ∀ a ∈ addrs,
      (a, duty) ∈
        (discoveryLoop env (duty :: ds2) addrs acc).2.dutyAttempts := by
  intro addrs
  induction addrs with
  | nil => intro acc a ha; exact absurd ha (List.not_mem_nil a)
  | cons a0 rest ih =>
    intro acc a ha
    simp only [discoveryLoop]
    rcases List.mem_cons.1 ha with rfl | h
    · obtain ⟨l, hl⟩ := discoveryLoop_attempts_mono env (duty :: ds2) rest _
      rw [hl]
      apply List.mem_append_left
      exact testGo_head_attempt env a (env.speedsOf acc.2.ec) duty ds2 acc.2
    · exact ih _ a h

theorem discoveryLoop_ec_frame (env : ECEnv) (duties : List Nat) {x : Nat} :
    ∀ (addrs : List Nat) (acc : List Nat × ECState), x ∉ addrs →
      (discoveryLoop env duties addrs acc).2.ec x = acc.2.ec x := by
  intro addrs
  induction addrs with
  | nil => exact fun acc _ => by simp [discoveryLoop]
  | cons a0 rest ih =>
    intro acc hx
    have hxa : x ≠ a0 := fun h => hx (h ▸ List.mem_cons_self a0 rest)
    have hxr : x ∉ rest := fun h => hx (List.mem_cons_of_mem _ h)
    simp only [discoveryLoop]
    rw [ih _ hxr]
    exact testGo_ec_ne env a0 (env.speedsOf acc.2.ec) hxa duties acc.2

/-- With all writes succeeding and a non-empty duty ladder, the address loop
leaves every scanned register holding the neutral byte `0`. -/
theorem discoveryLoop_ec_zero (env : ECEnv) (duties : List Nat)
    (hw : ∀ a v, env.writeOk a v = true) (hd : duties ≠ []) :
    ∀ (addrs : List Nat) (acc : List Nat × ECState), ∀ a ∈ addrs,
      (discoveryLoop env duties addrs acc).2.ec a = 0 := by
  intro addrs
  induction addrs with
  | nil => intro acc a ha; exact absurd ha (List.not_mem_nil a)
  | cons a0 rest ih =>
    intro acc a ha
    by_cases hmem : a ∈ rest
    · exact ih _ a hmem
    · rcases List.mem_cons.1 ha with rfl | h
      · simp only [discoveryLoop]
        rw [discoveryLoop_ec_frame env duties rest _ hmem]
        exact testGo_ec_self env a (env.speedsOf acc.2.ec) hw duties hd acc.2
      · exact absurd h hmem

theorem pyRange_eq_nil {start stop : Nat} (h : stop ≤ start) (step : Nat) :
    pyRange start stop step = [] := by
  unfold pyRange
  rw [Nat.sub_eq_zero_of_le h, Nat.zero_add]
  rcases Nat.eq_zero_or_pos step with hs | hs
  · subst hs
    rfl
  · rw [Nat.div_eq_of_lt (by omega)]
    rfl

theorem run_discovery_inv (env : ECEnv) (cfg : ECConfig) (st : ECState)
    (h1 : st.hits = []) (h2 : st.obsLog = []) :
    hitsObsInv (run_discovery env cfg st).2 := by
  have hinit : hitsObsInv st := by
    intro a d
    rw [h1, h2]
    simp
  have hb : hitsObsInv (create_ec_backup env cfg st) := by
    obtain ⟨hh, ho, _, _⟩ := create_ec_backup_preserves env cfg st
    intro a d
    rw [hh, ho]
    exact hinit a d
  exact discoveryLoop_inv env cfg.dutyCycles _ _ hb

/-- In a session's port-operation trace, every backup read precedes every
register write: the trace splits into the reads of the backup pass followed
by the writes of the probe loop. -/
theorem run_discovery_ops (env : ECEnv) (cfg : ECConfig) (st : ECState) :
    ∃ rl wl, (run_discovery env cfg st).2.ops = st.ops ++ rl ++ wl ∧
      (∀ op ∈ rl, op.isRd = true) ∧ (∀ op ∈ wl, op.isWr = true) := by
  obtain ⟨rl, hr, har⟩ := create_ec_backup_ops_reads env cfg st
  obtain ⟨wl, hwl, haw⟩ := discoveryLoop_ops_writes env cfg.dutyCycles
    (pyRange cfg.ecStart (cfg.ecEnd + 1) cfg.stride)
    ([], create_ec_backup env cfg st)
  refine ⟨rl, wl, ?_, har, haw⟩
  show (discoveryLoop env cfg.dutyCycles
      (pyRange cfg.ecStart (cfg.ecEnd + 1) cfg.stride)
      ([], create_ec_backup env cfg st)).2.ops = st.ops ++ rl ++ wl
  rw [hwl]
  show (create_ec_backup env cfg st).ops ++ wl = st.ops ++ rl ++ wl
  rw [hr]

theorem run_discovery_ec_zero (env : ECEnv) (cfg : ECConfig) (st : ECState)
    (hw : ∀ a v, env.writeOk a v = true) (hd : cfg.dutyCycles ≠ []) :
    ∀ a ∈ pyRange cfg.ecStart (cfg.ecEnd + 1) cfg.stride,
      (run_discovery env cfg st).2.ec a = 0 := by
  intro a ha
  exact discoveryLoop_ec_zero env cfg.dutyCycles hw hd _ _ a ha

theorem run_discovery_first_attempt (env : ECEnv) (cfg : ECConfig)
    (st : ECState) (duty : Nat) (ds2 : List Nat)
    (hcfg : cfg.dutyCycles = duty :: ds2) :
    ∀ a ∈ pyRange cfg.ecStart (cfg.ecEnd + 1) cfg.stride,
      (a, duty) ∈ (run_discovery env cfg st).2.dutyAttempts := by
  intro a ha
  simp only [run_discovery]
  rw [hcfg]
  exact discoveryLoop_first_attempts env duty ds2 _ _ a ha

theorem run_discovery_empty (env : ECEnv) (cfg : ECConfig) (st : ECState)
    (h : cfg.ecEnd < cfg.ecStart) :
    (run_discovery env cfg st).1 = [] ∧
    (run_discovery env cfg st).2.hits = st.hits ∧
    (run_discovery env cfg st).2.ops = st.ops ∧
    (run_discovery env cfg st).2.ec = st.ec := by
  have hr : pyRange cfg.ecStart (cfg.ecEnd + 1) cfg.stride = [] :=
    pyRange_eq_nil (by omega) _
  simp only [run_discovery]
  rw [hr]
  simp only [discoveryLoop]
  unfold create_ec_backup
  rw [hr]
  split_ifs with hporto
  · exact ⟨trivial, rfl, rfl, rfl⟩
  · exact ⟨trivial, rfl, rfl, rfl⟩

end EcPokeWatch

namespace AlienfanGui

theorem foldl_append_map {α β : Type} (f : α → β) :
    ∀ (l : List α) (init : List β),
      l.foldl (fun acc x => acc ++ [f x]) init = init ++ l.map f := by
  intro l
  induction l with
  | nil => intro init; simp
  | cons x rest ih =>
    intro init
    rw [List.foldl_cons, ih]
    simp

/-- Rewriting the per-channel temperature conversion: reading raw and then
dividing by `1000`, with failure defaulting to `0`, equals dividing the
defaulted raw value by `1000`. -/
theorem temp_conv (o : Option Int) :
    ((o.map (fun raw => (raw : ℚ) / 1000)).getD 0) = ((o.getD 0 : ℤ) : ℚ) / 1000 := by
  cases o <;> simp

theorem lookup_of_mem_of_nodup :
    ∀ (l : List (String × FanDevice)) (h : String) (dev : FanDevice),
      (l.map Prod.fst).Nodup → (h, dev) ∈ l → l.lookup h = some dev := by
  intro l
  induction l with
  | nil => intro h dev _ hm; exact absurd hm (List.not_mem_nil _)
  | cons p rest ih =>
    obtain ⟨k, dv⟩ := p
    intro h dev hnd hm
    rw [List.map_cons, List.nodup_cons] at hnd
    rcases List.mem_cons.1 hm with heq | hmem
    · injection heq with h1 h2
      subst h1
      subst h2
      simp [List.lookup]
    · have hne : h ≠ k := by
        rintro rfl
        exact hnd.1 (List.mem_map.2 ⟨(h, dev), hmem, rfl⟩)
      have hbeq : (h == k) = false := beq_eq_false_iff_ne.2 hne
      simp only [List.lookup, hbeq]
      exact ih h dev hnd.2 hmem

/-- The inner loop of `set_all_pwm` over one device's PWM channels: every
channel is attempted with the same value, and the aggregate flag accumulates
each per-channel success. -/
theorem setPwm_fold_spec (ctrl : FanCtrl) (env : SysfsEnv) (v : Int)
    (h : String) (dev : FanDevice)
    (hl : ctrl.fanDevices.lookup h = some dev) :
    ∀ (fs : List String), (∀ f ∈ fs, f ∈ dev.fanPwms) →
      ∀ (acc : Bool × List (String × String × Int)),
        fs.foldl (fun a f =>
          let r := set_pwm ctrl env h f v
          (a.1 && r.1, a.2 ++ r.2)) acc =
        (acc.1 && fs.all (fun f => env.writePwm h f),
          acc.2 ++ fs.map (fun f => (h, f, v))) := by
  intro fs
  induction fs with
  | nil => intro _ acc; simp
  | cons f rest ih =>
    intro hsub acc
    have hmem : f ∈ dev.fanPwms := hsub f (List.mem_cons_self f rest)
    have hstep : set_pwm ctrl env h f v = (env.writePwm h f, [(h, f, v)]) := by
      simp [set_pwm, hl, hmem]
    rw [List.foldl_cons]
    simp only [hstep]
    rw [ih (fun g hg => hsub g (List.mem_cons_of_mem _ hg)) _]
    simp [Bool.and_assoc]

/-- The outer loop of `set_all_pwm`: with distinct hwmon identifiers (a
Python dict invariant) it attempts every PWM channel of every device, in
order, regardless of earlier failures. -/
theorem setAllGo_spec (ctrl : FanCtrl) (env : SysfsEnv) (v : Int)
    (hnd : (ctrl.fanDevices.map Prod.fst).Nodup) :
    ∀ (l : List (String × FanDevice)), (∀ p ∈ l, p ∈ ctrl.fanDevices) →
      ∀ (acc : Bool × List (String × String × Int)),
        setAllGo ctrl env v l acc =
        (acc.1 && l.all (fun p =>
            p.2.fanPwms.all (fun f => env.writePwm p.1 f)),
          acc.2 ++ (l.map (fun p =>
            p.2.fanPwms.map (fun f => (p.1, f, v)))).flatten) := by
  intro l
  induction l with
  | nil => intro _ acc; simp [setAllGo]
  | cons p rest ih =>
    intro hsub acc
    have hp : (p.1, p.2) ∈ ctrl.fanDevices := hsub p (List.mem_cons_self p rest)
    have hl : ctrl.fanDevices.lookup p.1 = some p.2 :=
      lookup_of_mem_of_nodup _ p.1 p.2 hnd hp
    simp only [setAllGo]
    rw [setPwm_fold_spec ctrl env v p.1 p.2 hl p.2.fanPwms (fun f hf => hf) acc]
    rw [ih (fun q hq => hsub q (List.mem_cons_of_mem _ hq)) _]
    simp [Bool.and_assoc]

end AlienfanGui

namespace EcFanControl

theorem int_clamp_comm (v : Int) : max 0 (min 255 v) = min 255 (max 0 v) := by
  omega

end EcFanControl

open EcPokeWatch AlienfanGui EcFanControl

/-- C1 counterexample: a session over one address whose original byte is
`0x55`, with every port operation succeeding and no RPM effect anywhere.
The backup file records byte `0x55` for address `0x2A0`, yet after
`run_discovery` returns the register holds `0`, not the backed-up value:
the code writes the neutral `0x00` as its "restore", never the backed-up
byte, and never restores the snapshot. -/
theorem claim1_counterexample :
    (run_discovery envAllOk cfgOne (initState (fun _ => 0x55))).2.backup =
      [(0x2A0, 0x55)] ∧
    (run_discovery envAllOk cfgOne
      (initState (fun _ => 0x55))).2.ec 0x2A0 ≠ 0x55 ∧
    (run_discovery envAllOk cfgOne (initState (fun _ => 0x55))).2.ec 0x2A0
      = 0 := by
  decide

/-- C1 (amended): once `run_discovery` returns, every scanned address is
left holding the neutral byte `0x00` — the value the code writes back after
testing — rather than its pre-scan backed-up byte (stated under the
assumptions that port writes succeed and the duty ladder is non-empty; the
backup snapshot is written to a file but never written back to the EC). -/
theorem claim1_restore_writes_zero (env : ECEnv) (cfg : ECConfig)
    (st : ECState) (hw : ∀ a v, env.writeOk a v = true)
    (hd : cfg.dutyCycles ≠ []) :
    ∀ a ∈ pyRange cfg.ecStart (cfg.ecEnd + 1) cfg.stride,
      (run_discovery env cfg st).2.ec a = 0 :=
  run_discovery_ec_zero env cfg st hw hd

theorem claim1_restore_writes_zero_witness :
    (run_discovery envAllOk cfgOne (initState (fun _ => 0x55))).2.ec 0x2A0
      = 0 :=
  claim1_restore_writes_zero envAllOk cfgOne (initState (fun _ => 0x55))
    (fun _ _ => rfl) (by decide) 0x2A0 (by decide)

/-- C2 counterexample: when `_create_ec_backup` cannot open `/dev/port`,
the backup file is empty and incomplete, yet the session does not abort: the
duty write to address `0x2A0` is still performed. -/
theorem claim2_counterexample :
    (run_discovery envNoBackupPort cfgOne
      (initState (fun _ => 5))).2.backupComplete = false ∧
    (run_discovery envNoBackupPort cfgOne (initState (fun _ => 5))).2.backup
      = [] ∧
    PortOp.write 0x2A0 0x16 ∈
      (run_discovery envNoBackupPort cfgOne (initState (fun _ => 5))).2.ops := by
  decide

/-- C2 (amended): in every session the backup pass precedes all writes —
the port-operation trace splits into reads followed by writes — but a backup
failure is only logged and does not abort the session: writes may still be
attempted without a successful backup read. -/
theorem claim2_backup_reads_precede_writes (env : ECEnv) (cfg : ECConfig)
    (st : ECState) (h0 : st.ops = []) :
    ∃ rl wl, (run_discovery env cfg st).2.ops = rl ++ wl ∧
      (∀ op ∈ rl, op.isRd = true) ∧ (∀ op ∈ wl, op.isWr = true) := by
  obtain ⟨rl, wl, he, hr, hw⟩ := run_discovery_ops env cfg st
  exact ⟨rl, wl, by rw [he, h0, List.nil_append], hr, hw⟩

theorem claim2_backup_reads_precede_writes_witness :
    ∃ rl wl,
      (run_discovery envNoBackupPort cfgOne (initState (fun _ => 5))).2.ops
        = rl ++ wl ∧
      (∀ op ∈ rl, op.isRd = true) ∧ (∀ op ∈ wl, op.isWr = true) :=
  claim2_backup_reads_precede_writes envNoBackupPort cfgOne
    (initState (fun _ => 5)) rfl

/-- C4 counterexample: in the `envSticky` world, writing duty `0x16` to
address `0x2A0` changes the RPM vector from `[7]` to `[0x16]` and the
reversal write leaves it at `[0] ≠ [7]` — an irreversible observation — yet
the next duty `0x32` is still attempted on the same address, contradicting
the claim that probing of that address stops early. -/
theorem claim4_counterexample :
    ({ addr := 0x2A0, duty := 0x16, baseline := [7], post := [0x16]
       revFinal := some [0] } : ObsRec) ∈
      (run_discovery envSticky cfgTwo (initState (fun _ => 7))).2.obsLog ∧
    (0x2A0, 0x32) ∈
      (run_discovery envSticky cfgTwo
        (initState (fun _ => 7))).2.dutyAttempts ∧
    (run_discovery envSticky cfgTwo (initState (fun _ => 7))).2.hits
      = [] := by
  decide

/-- C4 (amended): an irreversible observation does not stop the duty loop —
whenever `test_register` ends without a confirmation, every duty of the
ladder was attempted on the address — and the session continues with the
remaining addresses: every scanned address gets the head duty of the ladder
attempted, whatever happened at earlier addresses. -/
theorem claim4_irreversible_does_not_stop :
    (∀ (env : ECEnv) (duties : List Nat) (addr : Nat) (st : ECState),
      (test_register env duties addr st).1 = false →
      (test_register env duties addr st).2.dutyAttempts =
        st.dutyAttempts ++ duties.map (fun d => (addr, d))) ∧
    (∀ (env : ECEnv) (cfg : ECConfig) (st : ECState) (duty : Nat)
      (ds2 : List Nat), cfg.dutyCycles = duty :: ds2 →
      ∀ a ∈ pyRange cfg.ecStart (cfg.ecEnd + 1) cfg.stride,
        (a, duty) ∈ (run_discovery env cfg st).2.dutyAttempts) := by
  constructor
  · intro env duties addr st h
    exact testGo_attempts_complete env addr (env.speedsOf st.ec) duties st h
  · intro env cfg st duty ds2 hcfg a ha
    exact run_discovery_first_attempt env cfg st duty ds2 hcfg a ha

theorem claim4_irreversible_does_not_stop_witness :
    (test_register envSticky [0x16, 0x32] 0x2A0
      (initState (fun _ => 7))).2.dutyAttempts =
    (initState (fun _ => 7)).dutyAttempts ++
      [0x16, 0x32].map (fun d => (0x2A0, d)) :=
  claim4_irreversible_does_not_stop.1 envSticky [0x16, 0x32] 0x2A0
    (initState (fun _ => 7)) (by decide)

/-- C5: an entry `(a, d)` is appended to the hits file iff the observation
log holds a record for `a` at `d` whose post-write RPM vector differed from
baseline and whose post-reversal RPM vector equals baseline
(`confirmedObs`); and on confirmation the duty ladder is cut short: the
attempted duties are exactly the prefix up to the confirming duty, with
exactly that hit appended. -/
theorem claim5_confirmed_iff_reverted :
    (∀ (env : ECEnv) (cfg : ECConfig) (st : ECState),
      st.hits = [] → st.obsLog = [] →
      ∀ a d, ((a, d) ∈ (run_discovery env cfg st).2.hits ↔
        ∃ r ∈ (run_discovery env cfg st).2.obsLog,
          r.addr = a ∧ r.duty = d ∧ confirmedObs r)) ∧
    (∀ (env : ECEnv) (duties : List Nat) (addr : Nat) (st : ECState),
      (test_register env duties addr st).1 = true →
      ∃ pre d rest2, duties = pre ++ d :: rest2 ∧
        (test_register env duties addr st).2.dutyAttempts =
          st.dutyAttempts ++ (pre ++ [d]).map (fun x => (addr, x)) ∧
        (test_register env duties addr st).2.hits
          = st.hits ++ [(addr, d)]) := by
  constructor
  · intro env cfg st h1 h2 a d
    exact run_discovery_inv env cfg st h1 h2 a d
  · intro env duties addr st h
    exact testGo_confirm_shape env addr (env.speedsOf st.ec) duties st h

theorem claim5_confirmed_iff_reverted_witness :
    (0x2A0, 0x16) ∈
      (run_discovery envToggle cfgOne (initState (fun _ => 0))).2.hits ↔
    ∃ r ∈ (run_discovery envToggle cfgOne (initState (fun _ => 0))).2.obsLog,
      r.addr = 0x2A0 ∧ r.duty = 0x16 ∧ confirmedObs r :=
  claim5_confirmed_iff_reverted.1 envToggle cfgOne (initState (fun _ => 0))
    rfl rfl 0x2A0 0x16

/-- C8: over an empty address range (start greater than end) a session
returns no discovered registers, leaves the hits file as it was, performs no
port operation at all (in particular zero writes), and leaves every register
untouched — for every environment, including one whose port device cannot be
opened, so successful port opening is not required for the empty range. -/
theorem claim8_empty_range_no_writes (env : ECEnv) (cfg : ECConfig)
    (st : ECState) (h : cfg.ecEnd < cfg.ecStart) :
    (run_discovery env cfg st).1 = [] ∧
    (run_discovery env cfg st).2.hits = st.hits ∧
    (run_discovery env cfg st).2.ops = st.ops ∧
    (run_discovery env cfg st).2.ec = st.ec :=
  run_discovery_empty env cfg st h

theorem claim8_empty_range_no_writes_witness :
    (run_discovery envNoBackupPort cfgEmpty (initState (fun _ => 5))).1
      = [] ∧
    (run_discovery envNoBackupPort cfgEmpty (initState (fun _ => 5))).2.hits
      = (initState (fun _ => 5)).hits ∧
    (run_discovery envNoBackupPort cfgEmpty (initState (fun _ => 5))).2.ops
      = (initState (fun _ => 5)).ops ∧
    (run_discovery envNoBackupPort cfgEmpty (initState (fun _ => 5))).2.ec
      = (initState (fun _ => 5)).ec :=
  claim8_empty_range_no_writes envNoBackupPort cfgEmpty
    (initState (fun _ => 5)) (by decide)

/-- C3 counterexample: with a valid channel, `set_pwm` accepts the
out-of-range value `300`: it performs the hardware write with `300` and
reports success, instead of rejecting the value before touching hardware. -/
theorem claim3_counterexample :
    set_pwm demoCtrl envPwmOk ("hwmon0") ("1") 300 =
      (true, [(("hwmon0"), ("1"), 300)]) ∧ ¬((300 : Int) ≤ 255) := by
  decide

/-- C3 (amended): `set_pwm` validates only that the channel exists — an
unknown hwmon device or a fan without PWM control yields `False` with no
hardware write — and performs no range validation: for a known channel it
attempts the hardware write with the given value as it is, for every integer
value, and returns the write's success. -/
theorem claim3_set_pwm_no_range_check (ctrl : FanCtrl) (env : SysfsEnv)
    (h f : String) (v : Int) :
    (ctrl.fanDevices.lookup h = none →
      set_pwm ctrl env h f v = (false, [])) ∧
    (∀ dev, ctrl.fanDevices.lookup h = some dev → f ∉ dev.fanPwms →
      set_pwm ctrl env h f v = (false, [])) ∧
    (∀ dev, ctrl.fanDevices.lookup h = some dev → f ∈ dev.fanPwms →
      set_pwm ctrl env h f v = (env.writePwm h f, [(h, f, v)])) := by
  refine ⟨?_, ?_, ?_⟩
  · intro hl
    simp [set_pwm, hl]
  · intro dev hl hmem
    simp [set_pwm, hl, hmem]
  · intro dev hl hmem
    simp [set_pwm, hl, hmem]

theorem claim3_set_pwm_no_range_check_witness :
    set_pwm demoCtrl envPwmOk ("hwmon0") ("1") 300 =
      (envPwmOk.writePwm ("hwmon0") ("1"), [(("hwmon0"), ("1"), 300)]) :=
  (claim3_set_pwm_no_range_check demoCtrl envPwmOk ("hwmon0") ("1")
    300).2.2 demoDev (by decide) (by decide)

/-- C6 counterexample: two worlds in which different channels fail produce
the very same return value (`False`), so the caller does not receive enough
information to identify which channels failed — refuting that part of the
claim while the aggregate flag itself behaves as described. -/
theorem claim6_counterexample :
    set_all_pwm demoCtrl envFail1 128 = set_all_pwm demoCtrl envFail2 128 ∧
    (set_all_pwm demoCtrl envFail1 128).1 = false ∧
    envFail1.writePwm ("hwmon0") ("1") = false ∧
    envFail2.writePwm ("hwmon0") ("1") = true ∧
    envFail1.writePwm ("hwmon0") ("2") = true ∧
    envFail2.writePwm ("hwmon0") ("2") = false := by
  decide

/-- C6 (amended): with distinct hwmon identifiers (a Python dict invariant),
`set_all_pwm` attempts a write on every PWM channel of every device with the
given value — no channel is skipped because an earlier one failed — and its
aggregate flag is true iff every per-channel write succeeded; but the caller
receives only that Boolean, not which channels failed. -/
theorem claim6_set_all_aggregate (ctrl : FanCtrl) (env : SysfsEnv) (v : Int)
    (hnd : (ctrl.fanDevices.map Prod.fst).Nodup) :
    (set_all_pwm ctrl env v).2 = (ctrl.fanDevices.map (fun p =>
      p.2.fanPwms.map (fun f => (p.1, f, v)))).flatten ∧
    ((set_all_pwm ctrl env v).1 = true ↔
      ∀ p ∈ ctrl.fanDevices, ∀ f ∈ p.2.fanPwms,
        env.writePwm p.1 f = true) := by
  have hs := setAllGo_spec ctrl env v hnd ctrl.fanDevices
    (fun p hp => hp) (true, [])
  constructor
  · show (setAllGo ctrl env v ctrl.fanDevices (true, [])).2 = _
    rw [hs]
    simp
  · show (setAllGo ctrl env v ctrl.fanDevices (true, [])).1 = true ↔ _
    rw [hs]
    simp [List.all_eq_true]

theorem claim6_set_all_aggregate_witness :
    (set_all_pwm demoCtrl envFail1 128).2 = (demoCtrl.fanDevices.map
      (fun p => p.2.fanPwms.map (fun f => (p.1, f, (128 : Int))))).flatten ∧
    ((set_all_pwm demoCtrl envFail1 128).1 = true ↔
      ∀ p ∈ demoCtrl.fanDevices, ∀ f ∈ p.2.fanPwms,
        envFail1.writePwm p.1 f = true) :=
  claim6_set_all_aggregate demoCtrl envFail1 128 (by decide)

/-- C7: every batch sensor reader (the two fan-speed readers and the
temperature reader) returns one value for every channel of the registry,
with a failed read reported as `0` (`0.0` for temperatures) for that channel
alone — stated as equations turning each reader's loop into a total `map`
whose per-channel value is the read's result defaulted on failure; no
per-channel failure aborts the batch or raises. -/
theorem claim7_batch_reads_degrade_to_zero (ctrl : FanCtrl)
    (env : SysfsEnv) (readFan : String → Option Int) (chans : List String) :
    get_fan_speeds ctrl env = ctrl.fanDevices.map (fun p =>
      (p.1, p.2.fanInputs.map (fun f => (f, (env.readFan p.1 f).getD 0)))) ∧
    EcPokeWatch.get_fan_speeds readFan chans =
      chans.map (fun c => (readFan c).getD 0) ∧
    get_temperatures ctrl env = ctrl.tempDevices.map (fun p =>
      (p.1, p.2.tempInputs.map (fun t =>
        (t, ((env.readTemp p.1 t).map
          (fun raw => (raw : ℚ) / 1000)).getD 0)))) := by
  refine ⟨?_, ?_, ?_⟩
  · unfold AlienfanGui.get_fan_speeds
    simp only [foldl_append_map, List.nil_append]
  · unfold EcPokeWatch.get_fan_speeds
    rw [foldl_append_map]
    simp
  · unfold AlienfanGui.get_temperatures
    simp only [foldl_append_map, List.nil_append]

/-- C9: every reported temperature is the raw milli-degree integer read from
the channel's `temp<K>_input` file divided by the constant `1000`, the same
divisor for every channel and every read (a failed read defaults to raw
`0`). -/
theorem claim9_temp_divisor_1000 (ctrl : FanCtrl) (env : SysfsEnv) :
    get_temperatures ctrl env = ctrl.tempDevices.map (fun p =>
      (p.1, p.2.tempInputs.map (fun t =>
        (t, (((env.readTemp p.1 t).getD 0 : ℤ) : ℚ) / 1000)))) := by
  unfold AlienfanGui.get_temperatures
  simp only [foldl_append_map, List.nil_append, temp_conv]

/-- C10: `set_fan_speed` returns `False` with no hardware access for an
unknown fan identifier; for a known one it clamps the requested value into
`[0, 255]` — the written value is `min 255 (max 0 v)` — and issues the EC
write with the fan's command byte, never rejecting out-of-range values. -/
theorem claim10_clamp_semantics (env : PortEnv) (fanId : String) (v : Int) :
    (fan_commands.lookup fanId = none →
      set_fan_speed env fanId v = (false, [])) ∧
    (∀ command, fan_commands.lookup fanId = some command →
      set_fan_speed env fanId v =
        ec_write env command (min 255 (max 0 v)) ∧
      (0 : Int) ≤ min 255 (max 0 v) ∧ min 255 (max 0 v) ≤ 255) := by
  constructor
  · intro hl
    simp [set_fan_speed, hl]
  · intro command hl
    refine ⟨?_, by omega, by omega⟩
    simp [set_fan_speed, hl, int_clamp_comm]

theorem claim10_clamp_semantics_witness :
    set_fan_speed portEnvOk ("fan7") 100 = (false, []) ∧
    set_fan_speed portEnvOk ("fan1") 999 =
      ec_write portEnvOk 0x30 255 := by
  constructor
  · exact (claim10_clamp_semantics portEnvOk ("fan7") 100).1 (by decide)
  · have h := (claim10_clamp_semantics portEnvOk ("fan1") 999).2 0x30
      (by decide)
    have he : (min 255 (max 0 (999 : Int))) = 255 := by decide
    exact he ▸ h.1
